import Mathlib

/-!
Verification of the deploy-cli deployment orchestrator.

The JavaScript sources (`bin/deploy-cli`, `lib/deploy.js`, `lib/utils.js`,
`lib/ssh.js`, `lib/config.js`) are shallowly embedded as Lean functions over
an explicit run state `St`.  Effects are recorded as a trace of `Event`s;
every fallible external operation (a local `execSync`, an SSH connect, a
remote `ssh.exec`, a file transfer) consumes one index of a failure oracle
`World.oracle : Nat → Bool` (`true` = the operation succeeds), which models
arbitrary failure injection.  Thrown JS errors are modelled as
`Except.error`; `try`/`catch`/`finally` becomes explicit matching on the
`Except` result.  External collaborators (the YAML profile store contents,
`JSON.parse`, remote file contents, prompt answers, git state, the wall
clock) are inputs in `World`, read-only during a run.
-/

/-- Observable effects of a run, in program order. -/
inductive Event where
  | validateEnv (env : String)
  | loadCfg (env : String)
  | promptUncommitted
  | promptConfirmEv
  | gitCheckout (branch : String)
  | gitPull (branch : String)
  | simulate (step : String)
  | localExec (cmd : String)
  | connectAttempt (ok : Bool)
  | remoteExec (cmd : String)
  | uploadDir (localDir remoteDir : String)
  | uploadSingle (localPath remotePath : String)
  | uploadFileList (remoteDir : String)
  | disconnectCall
  | dispose
  | verifyWarn
  deriving DecidableEq, Repr

/-- Errors thrown by the embedded code (JS `throw` / rejected promises). -/
inductive DeployErr where
  | invalidEnv (env : String)
  | notGitRepo
  | configFileMissing
  | configNotFound (env : String)
  | branchFailed
  | gitStatusFailed
  | cancelled
  | checkoutFailed
  | pullFailed
  | buildFailed
  | connectFailed
  | execFailed (cmd : String)
  | uploadFailed
  | notConnected
  deriving DecidableEq, Repr

/-- A server profile as stored in `servers.yml` (the fields the orchestrator
reads; absent/undefined string fields collapse to `""`, absent optional
fields to `none`). -/
structure Config where
  host : String := ""
  buildCommand : String := ""
  installCommand : String := ""
  buildCommandRemote : String := ""
  restartCommand : String := ""
  verifyCommand : String := ""
  deployPath : String := ""
  backupPath : String := ""
  uploadType : String := ""
  localPath : String := ""
  files : List String := []
  environment : Option String := none
  url : Option String := none
  deriving DecidableEq, Repr

/-- CLI options for `deploy` (`branch` defaults to `"main"` by destructuring). -/
structure Options where
  env : String
  branch : Option String := none
  force : Bool := false
  dryRun : Bool := false

/-- The external world a run observes: profile store, git state, prompt
answers, remote filesystem, command outputs, the failure oracle and the
wall-clock timestamp used for backup naming. Read-only during a run. -/
structure World where
  storeExists : Bool := true
  servers : List (String × Config) := []
  gitRepo : Bool := true
  currentBranch : String := "main"
  uncommitted : Bool := false
  answerContinue : Bool := true
  answerConfirm : Bool := true
  remoteFiles : List String := []
  execOut : String → String := fun _ => ""
  oracle : Nat → Bool := fun _ => true
  timestamp : String := "ts"

/-- Mutable run state threaded through the embedding: the world, the next
failure-oracle index, the event trace so far, and the `connected` flag of
the (single) `SSHConnection` object in scope. -/
structure St where
  w : World
  idx : Nat := 0
  trace : List Event := []
  connected : Bool := false

/-- A step of the program: state in, JS-result (`throw` = `error`) and state out. -/
def StepA (α : Type) : Type := St → Except DeployErr α × St

/-- A step returning nothing of interest. -/
abbrev Step : Type := StepA Unit

/-- Sequencing with JS exception propagation (`await a; await k a`). -/
def bindStep {α β : Type} (m : StepA α) (k : α → StepA β) : StepA β := fun s =>
  match m s with
  | (Except.ok a, s1) => k a s1
  | (Except.error e, s1) => (Except.error e, s1)

/-- `a; b` for unit steps. -/
def seqStep (a b : Step) : Step := bindStep a (fun _ => b)

/-- The step that does nothing. -/
def okStep : Step := fun s => (Except.ok (), s)

/-- Record an event in the trace. -/
def emit (e : Event) (s : St) : St := { s with trace := s.trace ++ [e] }

/-- A fallible external operation: records `ev`, consumes one oracle index,
throws `err` when the oracle says the operation fails. -/
def fallible (ev : Event) (err : DeployErr) : Step := fun s =>
  let s1 := { s with idx := s.idx + 1, trace := s.trace ++ [ev] }
  if s.w.oracle s.idx then (Except.ok (), s1) else (Except.error err, s1)

/-! ### `lib/ssh.js` — the `SSHConnection` session -/

/-- `SSHConnection.connect`: one oracle index decides auth/network success;
on success `this.connected = true`.  The trace records the attempt and its
outcome. -/
def sshConnect : Step := fun s =>
  let ok := s.w.oracle s.idx
  let s1 := { s with idx := s.idx + 1, trace := s.trace ++ [Event.connectAttempt ok] }
  if ok then (Except.ok (), { s1 with connected := true })
  else (Except.error DeployErr.connectFailed, s1)

/-- `SSHConnection.exec(command)`: throws `SSH未连接` when not connected;
otherwise runs the remote command (one oracle index; a non-zero exit or a
channel error is a throw) and returns its stdout, supplied by
`World.execOut`. -/
def sshExecOut (cmd : String) : StepA String := fun s =>
  if s.connected then
    let s1 := { s with idx := s.idx + 1, trace := s.trace ++ [Event.remoteExec cmd] }
    if s.w.oracle s.idx then (Except.ok (s.w.execOut cmd), s1)
    else (Except.error (DeployErr.execFailed cmd), s1)
  else (Except.error DeployErr.notConnected, s)

/-- `ssh.exec` with the stdout discarded (the call sites that ignore it). -/
def sshExecU (cmd : String) : Step := bindStep (sshExecOut cmd) (fun _ => okStep)

/-- `SSHConnection.uploadFile`: connected guard, then one fallible transfer. -/
def uploadFileM (localPath remotePath : String) : Step := fun s =>
  if s.connected then
    fallible (Event.uploadSingle localPath remotePath) DeployErr.uploadFailed s
  else (Except.error DeployErr.notConnected, s)

/-- `SSHConnection.uploadFiles(files, remoteDir)`: connected guard, then one
fallible batch transfer (`ssh.putFiles`). -/
def uploadFilesM (remoteDir : String) : Step := fun s =>
  if s.connected then
    fallible (Event.uploadFileList remoteDir) DeployErr.uploadFailed s
  else (Except.error DeployErr.notConnected, s)

/-- `SSHConnection.uploadDirectory(localDir, remoteDir)`: connected guard,
then one fallible recursive transfer (`ssh.putDirectory`). -/
def uploadDirectoryM (localDir remoteDir : String) : Step := fun s =>
  if s.connected then
    fallible (Event.uploadDir localDir remoteDir) DeployErr.uploadFailed s
  else (Except.error DeployErr.notConnected, s)

/-- `SSHConnection.disconnect()`: always safe to call; disposes the
underlying connection only when `connected`, and resets the flag.  The
trace records the method call and, separately, an actual disposal. -/
def sshDisconnect (s : St) : St :=
  let s1 := emit Event.disconnectCall s
  if s1.connected then
    let s2 := emit Event.dispose s1
    { s2 with connected := false }
  else s1

/-- `SSHConnection.fileExists(path)`: runs a `test -f` probe through `exec`
(`&& echo` keeps the remote exit status zero) and collapses every error —
including `SSH未连接` — to `false`.  Existence itself comes from
`World.remoteFiles`. -/
def fileExistsM (path : String) : St → Bool × St := fun s =>
  if s.connected then
    let s1 := { s with
      idx := s.idx + 1,
      trace := s.trace ++ [Event.remoteExec ("test -f " ++ path)] }
    if s.w.oracle s.idx then (s.w.remoteFiles.contains path, s1) else (false, s1)
  else (false, s)

/-! ### `lib/config.js` — profile resolution -/

/-- Does the character list start with `needle`? -/
def charsStartWith : List Char → List Char → Bool
  | _, [] => true
  | [], _ :: _ => false
  | a :: as, b :: bs => a == b && charsStartWith as bs

/-- Does the character list contain `needle` as a contiguous run? -/
def charsContain (needle : List Char) : List Char → Bool
  | [] => needle.isEmpty
  | a :: rest => charsStartWith (a :: rest) needle || charsContain needle rest

/-- JS `hay.includes(needle)`: substring test (`true` on the empty needle),
as a direct scan over the characters. -/
def jsIncludes (hay needle : String) : Bool :=
  charsContain needle.toList hay.toList

/-- The predicate of `ConfigManager.loadConfig`'s `Object.keys(...).find`:
`name.includes(env) || servers.servers[name].environment === env` (an
absent `environment` field is `undefined`, never `=== env`). -/
def nameMatches (servers : List (String × Config)) (env name : String) : Bool :=
  jsIncludes name env ||
    (match List.lookup name servers with
     | some c => c.environment == some env
     | none => false)

/-- `ConfigManager.loadConfig` after the store file was read: scan the key
list in stored order, take the first matching name, and index the map with
it.  `none` is the `未找到 ... 配置` throw (the unreachable failed re-index
lands on the same error via `deployProject`'s `if (!config)` guard). -/
def resolveServer (servers : List (String × Config)) (env : String) : Option Config :=
  match (servers.map Prod.fst).find? (fun name => nameMatches servers env name) with
  | some name => List.lookup name servers
  | none => none

/-- An entry matches `env` when its key contains `env` as a substring or its
profile's `environment` field equals `env` exactly. -/
def serverMatches (env : String) (entry : String × Config) : Bool :=
  jsIncludes entry.1 env || entry.2.environment == some env

/-- The module-level `loadConfig(env)` used by `deploy`, `status` and
`logs`: throws when the store file is missing, otherwise resolves through
`resolveServer`. -/
def loadConfigM (env : String) : StepA Config := fun s =>
  let s1 := emit (Event.loadCfg env) s
  if s.w.storeExists then
    match resolveServer s.w.servers env with
    | some c => (Except.ok c, s1)
    | none => (Except.error (DeployErr.configNotFound env), s1)
  else (Except.error DeployErr.configFileMissing, s1)

/-! ### `lib/utils.js` — validation and git state -/

/-- The closed environment enumeration of `validateEnvironment`. -/
def validEnvs : List String := ["development", "staging", "production"]

/-- `validateEnvironment(env)`: membership in the closed enumeration, then
the `git rev-parse --git-dir` repository check. -/
def validateEnvironmentM (env : String) : Step := fun s =>
  let s1 := emit (Event.validateEnv env) s
  if validEnvs.contains env then
    if s.w.gitRepo then (Except.ok (), s1)
    else (Except.error DeployErr.notGitRepo, s1)
  else (Except.error (DeployErr.invalidEnv env), s1)

/-- `getCurrentBranch()`: one fallible `git branch --show-current`. -/
def getCurrentBranchM : StepA String := fun s =>
  let s1 := { s with idx := s.idx + 1 }
  if s.w.oracle s.idx then (Except.ok s.w.currentBranch, s1)
  else (Except.error DeployErr.branchFailed, s1)

/-- `getGitStatus()`: one fallible `git status --porcelain` batch, returning
the uncommitted-changes flag the orchestrator reads. -/
def getGitStatusM : StepA Bool := fun s =>
  let s1 := { s with idx := s.idx + 1 }
  if s.w.oracle s.idx then (Except.ok s.w.uncommitted, s1)
  else (Except.error DeployErr.gitStatusFailed, s1)

/-! ### `lib/deploy.js` — the orchestrator -/

/-- The tail of `checkGitStatus`: `git checkout` when on another branch,
then always `git pull origin <branch>`. -/
def checkoutAndPull (cur target : String) : Step :=
  seqStep
    (if cur == target then okStep
     else fallible (Event.gitCheckout target) DeployErr.checkoutFailed)
    (fallible (Event.gitPull target) DeployErr.pullFailed)

/-- The uncommitted-changes gate of `checkGitStatus`: when there are
uncommitted changes and `force` is off, prompt; declining throws
`部署已取消`. -/
def uncommittedGate (dirty force : Bool) : Step := fun s =>
  if dirty && !force then
    let s1 := emit Event.promptUncommitted s
    if s1.w.answerContinue then (Except.ok (), s1)
    else (Except.error DeployErr.cancelled, s1)
  else (Except.ok (), s)

/-- `checkGitStatus(targetBranch, force)`: read branch and status; on
uncommitted changes without `force`, prompt and throw `部署已取消` on
decline; then switch branch if needed and pull. -/
def checkGitStatus (target : String) (force : Bool) : Step :=
  bindStep getCurrentBranchM (fun cur =>
    bindStep getGitStatusM (fun dirty =>
      seqStep (uncommittedGate dirty force) (checkoutAndPull cur target)))

/-- `confirmDeployment`: show the resolved profile and require an explicit
yes; declining throws `部署已取消`. -/
def confirmDeploymentM : Step := fun s =>
  let s1 := emit Event.promptConfirmEv s
  if s1.w.answerConfirm then (Except.ok (), s1)
  else (Except.error DeployErr.cancelled, s1)

/-- The seven simulated step names of `simulateDeployment`. -/
def simSteps : List String :=
  ["构建项目", "连接服务器", "备份当前版本", "上传新版本", "安装依赖", "重启服务", "验证部署结果"]

/-- `simulateDeployment`: report each named step as simulated-success; no
remote session, no failure path. -/
def simulateDeployment : Step := fun s =>
  (Except.ok (), { s with trace := s.trace ++ simSteps.map Event.simulate })

/-- `buildProject`: run `config.buildCommand` locally when non-empty. -/
def buildProject (cfg : Config) : Step := fun s =>
  if cfg.buildCommand.isEmpty then (Except.ok (), s)
  else fallible (Event.localExec cfg.buildCommand) DeployErr.buildFailed s

/-- `backupCurrentVersion`: `mkdir -p backupPath`, then copy the live
`deployPath` tree into the timestamp-stamped backup directory. -/
def backupCurrentVersion (cfg : Config) : Step := fun s =>
  seqStep
    (sshExecU ("mkdir -p " ++ cfg.backupPath))
    (sshExecU ("cp -r " ++ cfg.deployPath ++ " " ++ cfg.backupPath ++ "/backup-"
      ++ s.w.timestamp)) s

/-- The `uploadFiles` stage of `deploy.js`: ensure `deployPath` exists, then
transfer the tree (`uploadType === 'rsync'`) or the explicit file list. -/
def uploadStage (cfg : Config) : Step :=
  seqStep
    (sshExecU ("mkdir -p " ++ cfg.deployPath))
    (fun s =>
      if cfg.uploadType == "rsync" then uploadDirectoryM cfg.localPath cfg.deployPath s
      else uploadFilesM cfg.deployPath s)

/-- `installAndBuild`: an unconditional `cd deployPath` exec, then
`installCommand` and `buildCommandRemote`, each only when non-empty, each
prefixed by `cd deployPath && `. -/
def installAndBuild (cfg : Config) : Step :=
  seqStep (sshExecU ("cd " ++ cfg.deployPath))
    (seqStep
      (if cfg.installCommand.isEmpty then okStep
       else sshExecU ("cd " ++ cfg.deployPath ++ " && " ++ cfg.installCommand))
      (if cfg.buildCommandRemote.isEmpty then okStep
       else sshExecU ("cd " ++ cfg.deployPath ++ " && " ++ cfg.buildCommandRemote)))

/-- `restartService`: a no-op when `restartCommand` is empty, else run it
(the 3-second settle wait has no observable effect here). -/
def restartService (cfg : Config) : Step := fun s =>
  if cfg.restartCommand.isEmpty then (Except.ok (), s)
  else sshExecU cfg.restartCommand s

/-- `verifyDeployment`: run `verifyCommand` when non-empty; every error is
caught, logged as a warning, and the stage reports success. -/
def verifyDeployment (cfg : Config) : Step := fun s =>
  if cfg.verifyCommand.isEmpty then (Except.ok (), s)
  else
    match sshExecOut cfg.verifyCommand s with
    | (Except.ok _, s1) => (Except.ok (), s1)
    | (Except.error _, s1) => (Except.ok (), emit Event.verifyWarn s1)

/-- Sub-stages 3–7 of `executeDeployment`, in source order. -/
def deployStages (cfg : Config) : Step :=
  seqStep (backupCurrentVersion cfg)
    (seqStep (uploadStage cfg)
      (seqStep (installAndBuild cfg)
        (seqStep (restartService cfg) (verifyDeployment cfg))))

/-- `executeDeployment`: build locally, construct the session, connect, run
the remote sub-stages; the `finally` block calls `ssh.disconnect()`
whenever `ssh` was constructed (that is, on every path past
`buildProject`), and the body's result — success or first thrown error —
is what the function returns. -/
def executeDeployment (cfg : Config) : Step := fun s =>
  match buildProject cfg s with
  | (Except.error e, s1) => (Except.error e, s1)
  | (Except.ok _, s1) =>
    let r := seqStep sshConnect (deployStages cfg) s1
    (r.1, sshDisconnect r.2)

/-- `deployProject(options)`: validate, load the profile, check git state,
confirm unless `force || dryRun`, then simulate (`dryRun`) or execute. -/
def deployProject (opts : Options) : Step :=
  bindStep (validateEnvironmentM opts.env) (fun _ =>
    bindStep (loadConfigM opts.env) (fun cfg =>
      bindStep (checkGitStatus (opts.branch.getD "main") opts.force) (fun _ =>
        bindStep (if !opts.force && !opts.dryRun then confirmDeploymentM else okStep)
          (fun _ =>
            if opts.dryRun then simulateDeployment else executeDeployment cfg))))

/-! ### `lib/utils.js` — status reporting (`getDeployInfo`) and `showLogs` -/

/-- A JS object with string-or-`undefined` valued properties, in insertion
order (`none` is an `undefined`-valued property). -/
abbrev JsObj : Type := List (String × Option String)

/-- JS property assignment `o.k = v`: overwrite in place or append. -/
def jsSet (o : JsObj) (k : String) (v : Option String) : JsObj :=
  if (List.lookup k o).isSome then o.map (fun p => if p.1 == k then (k, v) else p)
  else o ++ [(k, v)]

/-- The marker-file block of `getDeployInfo`, up to its first statement that
can throw past the outer `try`.  `parse` stands for the platform's
`JSON.parse`, returning `none` when it would throw.  The inner
`try { deployInfo = JSON.parse(content) } catch (e) {}` assigns to the
`const deployInfo` binding: in JS a successful parse therefore throws
`TypeError: Assignment to constant variable`, which the empty `catch`
swallows exactly as it swallows a parse failure — on both paths the object
is still `{}`. -/
def deployInfoMarker (cfg : Config) (parse : String → Option JsObj) :
    StepA JsObj := fun s =>
  let markFile := cfg.deployPath ++ "/.deploy-info"
  match fileExistsM markFile s with
  | (false, s1) => (Except.ok [], s1)
  | (true, s1) =>
    match sshExecOut ("cat " ++ markFile) s1 with
    | (Except.error e, s2) => (Except.error e, s2)
    | (Except.ok content, s2) =>
      match parse content with
      | some _ => (Except.ok [], s2)
      | none => (Except.ok [], s2)

/-- The `stat -c %y deployPath` block: on success set `lastDeploy` to the
trimmed output; its own `try` ignores every error. -/
def deployInfoStat (cfg : Config) (info : JsObj) : St → JsObj × St := fun s =>
  match sshExecOut ("stat -c %y " ++ cfg.deployPath) s with
  | (Except.ok out, s1) => (jsSet info "lastDeploy" (some out.trim), s1)
  | (Except.error _, s1) => (info, s1)

/-- The `package.json` block: when the file exists and parses, set
`currentVersion` to its `version` property (`undefined` when absent); its
own `try` ignores every error. -/
def deployInfoPkg (cfg : Config) (parse : String → Option JsObj) (info : JsObj) :
    St → JsObj × St := fun s =>
  let pkg := cfg.deployPath ++ "/package.json"
  match fileExistsM pkg s with
  | (false, s1) => (info, s1)
  | (true, s1) =>
    match sshExecOut ("cat " ++ pkg) s1 with
    | (Except.error _, s2) => (info, s2)
    | (Except.ok content, s2) =>
      match parse content with
      | none => (info, s2)
      | some pj => (jsSet info "currentVersion" ((List.lookup "version" pj).join), s2)

/-- `getDeployInfo(ssh, config)`: the three blocks in order; the outer
`catch` turns any escaped error into a plain `{}`. -/
def getDeployInfo (cfg : Config) (parse : String → Option JsObj) :
    St → JsObj × St := fun s =>
  match deployInfoMarker cfg parse s with
  | (Except.error _, s1) => ([], s1)
  | (Except.ok info0, s1) =>
    let r1 := deployInfoStat cfg info0 s1
    deployInfoPkg cfg parse r1.1 r1.2

/-- The candidate log paths `showLogs` probes, in order. -/
def logPaths (cfg : Config) : List String :=
  [cfg.deployPath ++ "/logs/app.log", cfg.deployPath ++ "/app.log",
   "/var/log/nginx/access.log", "/var/log/nginx/error.log"]

/-- The `for (const logPath of logPaths)` probe loop: first existing path. -/
def findLogPath : List String → St → Option String × St
  | [], s => (none, s)
  | p :: rest, s =>
    match fileExistsM p s with
    | (true, s1) => (some p, s1)
    | (false, s1) => findLogPath rest s1

/-- The body of `showLogs`'s `try` in non-follow mode: load the profile,
connect, probe for a log file; without one, disconnect and return; with
one, `tail` it and disconnect.  A throw from `tail` escapes to the outer
`catch` (before any disconnect). -/
def showLogsCore (env : String) (lines : Nat) : Step := fun s =>
  match loadConfigM env s with
  | (Except.error e, s1) => (Except.error e, s1)
  | (Except.ok cfg, s1) =>
    match sshConnect s1 with
    | (Except.error e, s2) => (Except.error e, s2)
    | (Except.ok _, s2) =>
      match findLogPath (logPaths cfg) s2 with
      | (none, s3) => (Except.ok (), sshDisconnect s3)
      | (some p, s3) =>
        match sshExecOut ("tail -n " ++ toString lines ++ " " ++ p) s3 with
        | (Except.error e, s4) => (Except.error e, s4)
        | (Except.ok _, s4) => (Except.ok (), sshDisconnect s4)

/-- `showLogs(options)`: the outer `catch` prints the error and returns
normally — `showLogs` itself never rejects. -/
def showLogsRun (env : String) (lines : Nat) : Step := fun s =>
  match showLogsCore env lines s with
  | (Except.ok _, s1) => (Except.ok (), s1)
  | (Except.error _, s1) => (Except.ok (), s1)

/-! ### `bin/deploy-cli` — process exit codes -/

/-- The `deploy` command action: `process.exit(1)` when `deployProject`
rejects, implicit exit `0` otherwise. -/
def deployAction (opts : Options) (s : St) : Nat :=
  match (deployProject opts s).1 with
  | Except.ok _ => 0
  | Except.error _ => 1

/-- The `logs` command action: its `catch` only prints the error — there is
no `process.exit(1)` on this path, so the process ends with code `0`. -/
def logsAction (env : String) (lines : Nat) (s : St) : Nat :=
  match (showLogsRun env lines s).1 with
  | Except.ok _ => 0
  | Except.error _ => 1

/-! ### Event classifiers -/

/-- A successful connect attempt. -/
def isConnOk : Event → Bool
  | Event.connectAttempt true => true
  | _ => false

/-- An actual disposal of the underlying SSH connection. -/
def isDispose : Event → Bool
  | Event.dispose => true
  | _ => false

/-- An invocation of `SSHConnection.disconnect()`. -/
def isDiscCall : Event → Bool
  | Event.disconnectCall => true
  | _ => false

/-- A file-transfer operation (`uploadDirectory` / `uploadFiles` /
`uploadFile`). -/
def isUploadOp : Event → Bool
  | Event.uploadDir _ _ => true
  | Event.uploadFileList _ => true
  | Event.uploadSingle _ _ => true
  | _ => false

/-- Any remote-session operation: constructing/connecting a session,
executing a remote command, transferring files, or disposing a session. -/
def isRemoteEv : Event → Bool
  | Event.connectAttempt _ => true
  | Event.remoteExec _ => true
  | Event.uploadDir _ _ => true
  | Event.uploadFileList _ => true
  | Event.uploadSingle _ _ => true
  | Event.disconnectCall => true
  | Event.dispose => true
  | _ => false

/-- Events a remote sub-stage (backup/upload/install/restart/verify) may
record: remote commands, transfers, and the verify warning — never a
connect, disconnect or dispose. -/
def isStageEv : Event → Bool
  | Event.remoteExec _ => true
  | Event.uploadDir _ _ => true
  | Event.uploadFileList _ => true
  | Event.uploadSingle _ _ => true
  | Event.verifyWarn => true
  | _ => false

/-- Count upload operations in a trace. -/
def countUpload (l : List Event) : Nat := l.countP isUploadOp

/-! ### Frame lemmas: what a step may append to the trace -/

/-- `m` preserves the world and the `connected` flag and only appends
events satisfying `P` to the trace. -/
def AppendsOnly {α : Type} (P : Event → Bool) (m : StepA α) : Prop :=
  ∀ s : St, (m s).2.connected = s.connected ∧ (m s).2.w = s.w ∧
    ∃ l : List Event, (m s).2.trace = s.trace ++ l ∧ l.all P = true

theorem appendsOnly_mono {α : Type} {P Q : Event → Bool} {m : StepA α}
    (hPQ : ∀ e, P e = true → Q e = true) (hm : AppendsOnly P m) :
    AppendsOnly Q m := by
  intro s
  obtain ⟨hc, hw, l, ht, ha⟩ := hm s
  refine ⟨hc, hw, l, ht, ?_⟩
  rw [List.all_eq_true] at ha ⊢
  exact fun e he => hPQ e (ha e he)

theorem appendsOnly_okStep {P : Event → Bool} : AppendsOnly P okStep := by
  intro s
  exact ⟨rfl, rfl, [], (List.append_nil s.trace).symm, rfl⟩

theorem appendsOnly_bind {α β : Type} {P : Event → Bool} {m : StepA α}
    {k : α → StepA β} (hm : AppendsOnly P m) (hk : ∀ a, AppendsOnly P (k a)) :
    AppendsOnly P (bindStep m k) := by
  intro s
  have hms := hm s
  simp only [bindStep]
  rcases hE : m s with ⟨r, s1⟩
  rw [hE] at hms
  obtain ⟨hc1, hw1, l1, ht1, ha1⟩ := hms
  cases r with
  | error e => exact ⟨hc1, hw1, l1, ht1, ha1⟩
  | ok a =>
    obtain ⟨hc2, hw2, l2, ht2, ha2⟩ := hk a s1
    refine ⟨hc2.trans hc1, hw2.trans hw1, l1 ++ l2, ?_, ?_⟩
    · rw [ht2, ht1, List.append_assoc]
    · rw [List.all_append, ha1, ha2]
      rfl


theorem fallible_state (ev : Event) (err : DeployErr) (s : St) :
    (fallible ev err s).2 = { s with idx := s.idx + 1, trace := s.trace ++ [ev] } := by
  simp only [fallible]
  split <;> rfl

theorem appendsOnly_fallible {P : Event → Bool} {ev : Event} (err : DeployErr)
    (h : P ev = true) : AppendsOnly P (fallible ev err) := by
  intro s
  rw [fallible_state]
  exact ⟨rfl, rfl, [ev], rfl, by simp [h]⟩

theorem sshExecOut_state_conn (cmd : String) (s : St) (hc : s.connected = true) :
    (sshExecOut cmd s).2
      = { s with idx := s.idx + 1, trace := s.trace ++ [Event.remoteExec cmd] } := by
  simp only [sshExecOut]
  rw [if_pos hc]
  split <;> rfl

theorem sshExecOut_state_notconn (cmd : String) (s : St) (hc : s.connected = false) :
    sshExecOut cmd s = (Except.error DeployErr.notConnected, s) := by
  simp [sshExecOut, hc]

theorem appendsOnly_sshExecOut (P : Event → Bool) (cmd : String)
    (h : P (Event.remoteExec cmd) = true) : AppendsOnly P (sshExecOut cmd) := by
  intro s
  by_cases hc : s.connected = true
  · rw [sshExecOut_state_conn cmd s hc]
    exact ⟨rfl, rfl, [Event.remoteExec cmd], rfl, by simp [h]⟩
  · have hc' : s.connected = false := by simpa using hc
    rw [sshExecOut_state_notconn cmd s hc']
    exact ⟨rfl, rfl, [], (List.append_nil s.trace).symm, rfl⟩

theorem appendsOnly_sshExecU {P : Event → Bool} (cmd : String)
    (h : P (Event.remoteExec cmd) = true) : AppendsOnly P (sshExecU cmd) :=
  appendsOnly_bind (appendsOnly_sshExecOut P cmd h) (fun _ => appendsOnly_okStep)

theorem appendsOnly_uploadFilesM {P : Event → Bool} (remoteDir : String)
    (h : P (Event.uploadFileList remoteDir) = true) :
    AppendsOnly P (uploadFilesM remoteDir) := by
  intro s
  by_cases hc : s.connected = true
  · have heq : uploadFilesM remoteDir s
        = fallible (Event.uploadFileList remoteDir) DeployErr.uploadFailed s := by
      simp [uploadFilesM, hc]
    rw [heq]
    exact appendsOnly_fallible DeployErr.uploadFailed h s
  · have hc' : s.connected = false := by simpa using hc
    have heq : uploadFilesM remoteDir s = (Except.error DeployErr.notConnected, s) := by
      simp [uploadFilesM, hc']
    rw [heq]
    exact ⟨rfl, rfl, [], (List.append_nil s.trace).symm, rfl⟩

theorem appendsOnly_uploadDirectoryM {P : Event → Bool} (localDir remoteDir : String)
    (h : P (Event.uploadDir localDir remoteDir) = true) :
    AppendsOnly P (uploadDirectoryM localDir remoteDir) := by
  intro s
  by_cases hc : s.connected = true
  · have heq : uploadDirectoryM localDir remoteDir s
        = fallible (Event.uploadDir localDir remoteDir) DeployErr.uploadFailed s := by
      simp [uploadDirectoryM, hc]
    rw [heq]
    exact appendsOnly_fallible DeployErr.uploadFailed h s
  · have hc' : s.connected = false := by simpa using hc
    have heq : uploadDirectoryM localDir remoteDir s
        = (Except.error DeployErr.notConnected, s) := by
      simp [uploadDirectoryM, hc']
    rw [heq]
    exact ⟨rfl, rfl, [], (List.append_nil s.trace).symm, rfl⟩

/-- A local `execSync` event. -/
def isLocalExecEv : Event → Bool
  | Event.localExec _ => true
  | _ => false

/-- A remote `ssh.exec` event. -/
def isExecEv : Event → Bool
  | Event.remoteExec _ => true
  | _ => false

/-- What the verify stage may record: an exec or the warning. -/
def isVerifyEv (e : Event) : Bool := isExecEv e || (e == Event.verifyWarn)

theorem appendsOnly_buildProject (cfg : Config) :
    AppendsOnly isLocalExecEv (buildProject cfg) := by
  intro s
  by_cases hb : cfg.buildCommand.isEmpty = true
  · have heq : buildProject cfg s = (Except.ok (), s) := by simp [buildProject, hb]
    rw [heq]
    exact ⟨rfl, rfl, [], (List.append_nil s.trace).symm, rfl⟩
  · have heq : buildProject cfg s
        = fallible (Event.localExec cfg.buildCommand) DeployErr.buildFailed s := by
      simp [buildProject, hb]
    rw [heq]
    exact appendsOnly_fallible DeployErr.buildFailed rfl s

theorem appendsOnly_backup (cfg : Config) :
    AppendsOnly isExecEv (backupCurrentVersion cfg) := by
  intro s
  exact (appendsOnly_bind (appendsOnly_sshExecU _ rfl)
    (fun _ => appendsOnly_sshExecU _ rfl)) s

theorem appendsOnly_uploadStage (cfg : Config) :
    AppendsOnly (fun e => isExecEv e || isUploadOp e) (uploadStage cfg) := by
  unfold uploadStage seqStep
  apply appendsOnly_bind (appendsOnly_sshExecU _ rfl)
  intro _
  by_cases hu : (cfg.uploadType == "rsync") = true
  · simp only [hu, if_true]
    exact appendsOnly_uploadDirectoryM _ _ (by simp [isUploadOp])
  · simp only [Bool.not_eq_true] at hu
    simp only [hu, Bool.false_eq_true, if_false]
    exact appendsOnly_uploadFilesM _ (by simp [isUploadOp])

theorem appendsOnly_installAndBuild (cfg : Config) :
    AppendsOnly isExecEv (installAndBuild cfg) := by
  unfold installAndBuild seqStep
  apply appendsOnly_bind (appendsOnly_sshExecU _ rfl)
  intro _
  apply appendsOnly_bind
  · by_cases hi : cfg.installCommand.isEmpty = true
    · simp only [hi, if_true]
      exact appendsOnly_okStep
    · simp only [hi, Bool.false_eq_true, if_false]
      exact appendsOnly_sshExecU _ rfl
  · intro _
    by_cases hb : cfg.buildCommandRemote.isEmpty = true
    · simp only [hb, if_true]
      exact appendsOnly_okStep
    · simp only [hb, Bool.false_eq_true, if_false]
      exact appendsOnly_sshExecU _ rfl

theorem appendsOnly_restart (cfg : Config) :
    AppendsOnly isExecEv (restartService cfg) := by
  intro s
  by_cases hr : cfg.restartCommand.isEmpty = true
  · have heq : restartService cfg s = (Except.ok (), s) := by simp [restartService, hr]
    rw [heq]
    exact ⟨rfl, rfl, [], (List.append_nil s.trace).symm, rfl⟩
  · have heq : restartService cfg s = sshExecU cfg.restartCommand s := by
      simp [restartService, hr]
    rw [heq]
    exact appendsOnly_sshExecU _ rfl s

theorem appendsOnly_verify (cfg : Config) :
    AppendsOnly isVerifyEv (verifyDeployment cfg) := by
  intro s
  by_cases hv : cfg.verifyCommand.isEmpty = true
  · have heq : verifyDeployment cfg s = (Except.ok (), s) := by simp [verifyDeployment, hv]
    rw [heq]
    exact ⟨rfl, rfl, [], (List.append_nil s.trace).symm, rfl⟩
  · have hx := appendsOnly_sshExecOut isVerifyEv cfg.verifyCommand
      (by simp [isVerifyEv, isExecEv]) s
    simp only [verifyDeployment, hv, Bool.false_eq_true, if_false]
    rcases hE : sshExecOut cfg.verifyCommand s with ⟨r, s1⟩
    rw [hE] at hx
    obtain ⟨hc, hw, l, ht, ha⟩ := hx
    cases r with
    | ok a => exact ⟨hc, hw, l, ht, ha⟩
    | error e =>
      refine ⟨hc, hw, l ++ [Event.verifyWarn], ?_, ?_⟩
      · show s1.trace ++ [Event.verifyWarn] = s.trace ++ (l ++ [Event.verifyWarn])
        rw [ht, List.append_assoc]
      · rw [List.all_append, ha]
        simp [isVerifyEv]

theorem appendsOnly_deployStages (cfg : Config) :
    AppendsOnly isStageEv (deployStages cfg) := by
  have hexec : ∀ e, isExecEv e = true → isStageEv e = true := by
    intro e he
    cases e <;> simp_all [isExecEv, isStageEv]
  have hup : ∀ e, (isExecEv e || isUploadOp e) = true → isStageEv e = true := by
    intro e he
    cases e <;> simp_all [isExecEv, isUploadOp, isStageEv]
  have hver : ∀ e, isVerifyEv e = true → isStageEv e = true := by
    intro e he
    cases e <;> simp_all [isVerifyEv, isExecEv, isStageEv]
  unfold deployStages seqStep
  apply appendsOnly_bind (appendsOnly_mono hexec (appendsOnly_backup cfg))
  intro _
  apply appendsOnly_bind (appendsOnly_mono hup (appendsOnly_uploadStage cfg))
  intro _
  apply appendsOnly_bind (appendsOnly_mono hexec (appendsOnly_installAndBuild cfg))
  intro _
  apply appendsOnly_bind (appendsOnly_mono hexec (appendsOnly_restart cfg))
  intro _
  exact appendsOnly_mono hver (appendsOnly_verify cfg)

/-- Count events of class `Q` is zero on a trace segment whose events all
belong to a class `P` disjoint from `Q`. -/
theorem countP_eq_zero_of_all {l : List Event} {P Q : Event → Bool}
    (hall : l.all P = true) (h : ∀ e, P e = true → Q e = false) : l.countP Q = 0 := by
  rw [List.countP_eq_zero]
  intro a ha
  have hp := List.all_eq_true.mp hall a ha
  simp [h a hp]

/-! ### State-shape lemmas for the execute phase -/

theorem sshConnect_ok (s : St) (ho : s.w.oracle s.idx = true) :
    sshConnect s = (Except.ok (), { s with
      idx := s.idx + 1,
      trace := s.trace ++ [Event.connectAttempt true],
      connected := true }) := by
  simp [sshConnect, ho]

theorem sshConnect_fail (s : St) (ho : s.w.oracle s.idx = false) :
    sshConnect s = (Except.error DeployErr.connectFailed, { s with
      idx := s.idx + 1,
      trace := s.trace ++ [Event.connectAttempt false] }) := by
  simp [sshConnect, ho]

theorem sshDisconnect_conn (s : St) (hc : s.connected = true) :
    sshDisconnect s = { s with
      trace := s.trace ++ [Event.disconnectCall, Event.dispose],
      connected := false } := by
  simp [sshDisconnect, emit, hc]

theorem sshDisconnect_notconn (s : St) (hc : s.connected = false) :
    sshDisconnect s = { s with trace := s.trace ++ [Event.disconnectCall] } := by
  simp [sshDisconnect, emit, hc]

theorem executeDeployment_build_err (cfg : Config) (s : St) {e : DeployErr} {s1 : St}
    (hB : buildProject cfg s = (Except.error e, s1)) :
    executeDeployment cfg s = (Except.error e, s1) := by
  simp only [executeDeployment, hB]

theorem executeDeployment_build_ok (cfg : Config) (s : St) {s1 : St}
    (hB : buildProject cfg s = (Except.ok (), s1)) :
    executeDeployment cfg s
      = ((seqStep sshConnect (deployStages cfg) s1).1,
         sshDisconnect (seqStep sshConnect (deployStages cfg) s1).2) := by
  simp only [executeDeployment, hB]

theorem seqStep_conn_ok (b : Step) (s : St) (ho : s.w.oracle s.idx = true) :
    seqStep sshConnect b s
      = b { s with
            idx := s.idx + 1,
            trace := s.trace ++ [Event.connectAttempt true],
            connected := true } := by
  simp only [seqStep, bindStep, sshConnect_ok s ho]

theorem seqStep_conn_fail (b : Step) (s : St) (ho : s.w.oracle s.idx = false) :
    seqStep sshConnect b s
      = (Except.error DeployErr.connectFailed, { s with
          idx := s.idx + 1,
          trace := s.trace ++ [Event.connectAttempt false] }) := by
  simp only [seqStep, bindStep, sshConnect_fail s ho]

/-! ### Disjointness of event classes -/

theorem localEv_not_conn : ∀ e, isLocalExecEv e = true → isConnOk e = false := by
  intro e he
  cases e <;> simp_all [isLocalExecEv, isConnOk]

theorem localEv_not_dispose : ∀ e, isLocalExecEv e = true → isDispose e = false := by
  intro e he
  cases e <;> simp_all [isLocalExecEv, isDispose]

theorem localEv_not_call : ∀ e, isLocalExecEv e = true → isDiscCall e = false := by
  intro e he
  cases e <;> simp_all [isLocalExecEv, isDiscCall]

theorem localEv_not_upload : ∀ e, isLocalExecEv e = true → isUploadOp e = false := by
  intro e he
  cases e <;> simp_all [isLocalExecEv, isUploadOp]

theorem stageEv_not_conn : ∀ e, isStageEv e = true → isConnOk e = false := by
  intro e he
  cases e <;> simp_all [isStageEv, isConnOk]

theorem stageEv_not_dispose : ∀ e, isStageEv e = true → isDispose e = false := by
  intro e he
  cases e <;> simp_all [isStageEv, isDispose]

theorem stageEv_not_call : ∀ e, isStageEv e = true → isDiscCall e = false := by
  intro e he
  cases e <;> simp_all [isStageEv, isDiscCall]

theorem execEv_not_upload : ∀ e, isExecEv e = true → isUploadOp e = false := by
  intro e he
  cases e <;> simp_all [isExecEv, isUploadOp]

/-- C1.  In every run of `executeDeployment` started with a fresh (not yet
connected) session, the number of disposals added to the trace equals the
number of successful connect attempts added (both `0` or both `1`), and
whenever the connect sub-stage succeeded, `disconnect` is invoked exactly
once before `executeDeployment` returns — on the success path, on every
fatal later sub-stage, and on a thrown error alike. -/
theorem c1_session_released_once (cfg : Config) (s : St) (h : s.connected = false) :
    ∃ b : Bool,
      (executeDeployment cfg s).2.trace.countP isConnOk
          = s.trace.countP isConnOk + b.toNat ∧
      (executeDeployment cfg s).2.trace.countP isDispose
          = s.trace.countP isDispose + b.toNat ∧
      (b = true →
        (executeDeployment cfg s).2.trace.countP isDiscCall
            = s.trace.countP isDiscCall + 1) := by
  obtain ⟨hc0, hw0, l0, ht0, ha0⟩ := appendsOnly_buildProject cfg s
  have hl0c : l0.countP isConnOk = 0 := countP_eq_zero_of_all ha0 localEv_not_conn
  have hl0d : l0.countP isDispose = 0 := countP_eq_zero_of_all ha0 localEv_not_dispose
  have hl0k : l0.countP isDiscCall = 0 := countP_eq_zero_of_all ha0 localEv_not_call
  rcases hB : buildProject cfg s with ⟨rb, s1⟩
  rw [hB] at hc0 hw0 ht0
  have ht0' : s1.trace = s.trace ++ l0 := ht0
  have hc0' : s1.connected = s.connected := hc0
  cases rb with
  | error e =>
    rw [executeDeployment_build_err cfg s hB]
    refine ⟨false, ?_, ?_, by simp⟩ <;>
      simp [ht0', List.countP_append, hl0c, hl0d, hl0k]
  | ok a =>
    rw [executeDeployment_build_ok cfg s hB]
    by_cases ho : s1.w.oracle s1.idx = true
    · rw [seqStep_conn_ok _ s1 ho]
      obtain ⟨hc2, hw2, l2, ht2, ha2⟩ := appendsOnly_deployStages cfg
        { s1 with
          idx := s1.idx + 1,
          trace := s1.trace ++ [Event.connectAttempt true],
          connected := true }
      have hl2c : l2.countP isConnOk = 0 := countP_eq_zero_of_all ha2 stageEv_not_conn
      have hl2d : l2.countP isDispose = 0 := countP_eq_zero_of_all ha2 stageEv_not_dispose
      have hl2k : l2.countP isDiscCall = 0 := countP_eq_zero_of_all ha2 stageEv_not_call
      have hc2' : (deployStages cfg { s1 with
          idx := s1.idx + 1,
          trace := s1.trace ++ [Event.connectAttempt true],
          connected := true }).2.connected = true := hc2
      have ht2' : (deployStages cfg { s1 with
          idx := s1.idx + 1,
          trace := s1.trace ++ [Event.connectAttempt true],
          connected := true }).2.trace
          = (s1.trace ++ [Event.connectAttempt true]) ++ l2 := ht2
      rw [sshDisconnect_conn _ hc2']
      refine ⟨true, ?_, ?_, fun _ => ?_⟩ <;>
        (rw [show ({ (deployStages cfg { s1 with
            idx := s1.idx + 1,
            trace := s1.trace ++ [Event.connectAttempt true],
            connected := true }).2 with
            trace := (deployStages cfg { s1 with
              idx := s1.idx + 1,
              trace := s1.trace ++ [Event.connectAttempt true],
              connected := true }).2.trace ++ [Event.disconnectCall, Event.dispose],
            connected := false } : St).trace
            = ((s1.trace ++ [Event.connectAttempt true]) ++ l2)
                ++ [Event.disconnectCall, Event.dispose] from by rw [ht2']]
         simp [ht0', List.countP_append, List.countP_cons, List.countP_nil,
           hl0c, hl0d, hl0k, hl2c, hl2d, hl2k, isConnOk, isDispose, isDiscCall])
    · have ho' : s1.w.oracle s1.idx = false := by simpa using ho
      rw [seqStep_conn_fail _ s1 ho']
      have hcf : (({ s1 with
          idx := s1.idx + 1,
          trace := s1.trace ++ [Event.connectAttempt false] } : St)).connected = false :=
        hc0'.trans h
      rw [sshDisconnect_notconn _ hcf]
      refine ⟨false, ?_, ?_, by simp⟩ <;>
        simp [ht0', List.countP_append, List.countP_cons, List.countP_nil,
          hl0c, hl0d, hl0k, isConnOk, isDispose, isDiscCall]

/-! ### Sequencing lemmas and frame lemmas for the pre-execute pipeline -/

theorem bindStep_err {α β : Type} {m : StepA α} {k : α → StepA β} {s s1 : St}
    {e : DeployErr} (h : m s = (Except.error e, s1)) :
    bindStep m k s = (Except.error e, s1) := by
  simp [bindStep, h]

theorem bindStep_ok {α β : Type} {m : StepA α} {k : α → StepA β} {s s1 : St}
    {a : α} (h : m s = (Except.ok a, s1)) : bindStep m k s = k a s1 := by
  simp [bindStep, h]

theorem validateEnvironmentM_state (env : String) (s : St) :
    (validateEnvironmentM env s).2 = emit (Event.validateEnv env) s := by
  simp only [validateEnvironmentM]
  split
  · split <;> rfl
  · rfl

theorem validateEnvironmentM_invalid (env : String) (s : St)
    (h : validEnvs.contains env = false) :
    validateEnvironmentM env s
      = (Except.error (DeployErr.invalidEnv env), emit (Event.validateEnv env) s) := by
  simp only [validateEnvironmentM]
  rw [if_neg (by rw [h]; exact Bool.false_ne_true)]

theorem loadConfigM_state (env : String) (s : St) :
    (loadConfigM env s).2 = emit (Event.loadCfg env) s := by
  simp only [loadConfigM]
  split
  · split <;> rfl
  · rfl

theorem getCurrentBranchM_state (s : St) :
    (getCurrentBranchM s).2 = { s with idx := s.idx + 1 } := by
  simp only [getCurrentBranchM]
  split <;> rfl

theorem getGitStatusM_state (s : St) :
    (getGitStatusM s).2 = { s with idx := s.idx + 1 } := by
  simp only [getGitStatusM]
  split <;> rfl

theorem appendsOnly_validate {P : Event → Bool} (env : String)
    (h : P (Event.validateEnv env) = true) :
    AppendsOnly P (validateEnvironmentM env) := by
  intro s
  rw [validateEnvironmentM_state]
  exact ⟨rfl, rfl, [Event.validateEnv env], rfl, by simp [h]⟩

theorem appendsOnly_loadCfg {P : Event → Bool} (env : String)
    (h : P (Event.loadCfg env) = true) : AppendsOnly P (loadConfigM env) := by
  intro s
  rw [loadConfigM_state]
  exact ⟨rfl, rfl, [Event.loadCfg env], rfl, by simp [h]⟩

theorem appendsOnly_getCurrentBranch {P : Event → Bool} :
    AppendsOnly P getCurrentBranchM := by
  intro s
  rw [getCurrentBranchM_state]
  exact ⟨rfl, rfl, [], (List.append_nil s.trace).symm, rfl⟩

theorem appendsOnly_getGitStatus {P : Event → Bool} : AppendsOnly P getGitStatusM := by
  intro s
  rw [getGitStatusM_state]
  exact ⟨rfl, rfl, [], (List.append_nil s.trace).symm, rfl⟩

theorem appendsOnly_checkoutAndPull {P : Event → Bool} (cur target : String)
    (hco : P (Event.gitCheckout target) = true) (hpl : P (Event.gitPull target) = true) :
    AppendsOnly P (checkoutAndPull cur target) := by
  unfold checkoutAndPull seqStep
  apply appendsOnly_bind
  · by_cases hb : (cur == target) = true
    · simp only [hb, if_true]
      exact appendsOnly_okStep
    · simp only [Bool.not_eq_true] at hb
      simp only [hb, Bool.false_eq_true, if_false]
      exact appendsOnly_fallible DeployErr.checkoutFailed hco
  · intro _
    exact appendsOnly_fallible DeployErr.pullFailed hpl

theorem uncommittedGate_state (dirty force : Bool) (s : St) :
    (uncommittedGate dirty force s).2
      = (if dirty && !force then emit Event.promptUncommitted s else s) := by
  simp only [uncommittedGate]
  split
  · split <;> rfl
  · rfl

theorem appendsOnly_uncommittedGate {P : Event → Bool} (dirty force : Bool)
    (hpr : P Event.promptUncommitted = true) :
    AppendsOnly P (uncommittedGate dirty force) := by
  intro s
  rw [uncommittedGate_state]
  by_cases hd : (dirty && !force) = true
  · rw [if_pos hd]
    exact ⟨rfl, rfl, [Event.promptUncommitted], rfl, by simp [hpr]⟩
  · rw [if_neg hd]
    exact ⟨rfl, rfl, [], (List.append_nil s.trace).symm, rfl⟩

theorem appendsOnly_checkGitStatus {P : Event → Bool} (target : String) (force : Bool)
    (hpr : P Event.promptUncommitted = true)
    (hco : P (Event.gitCheckout target) = true) (hpl : P (Event.gitPull target) = true) :
    AppendsOnly P (checkGitStatus target force) := by
  unfold checkGitStatus seqStep
  apply appendsOnly_bind (appendsOnly_getCurrentBranch)
  intro cur
  apply appendsOnly_bind (appendsOnly_getGitStatus)
  intro dirty
  apply appendsOnly_bind (appendsOnly_uncommittedGate dirty force hpr)
  intro _
  exact appendsOnly_checkoutAndPull cur target hco hpl

theorem confirmDeploymentM_state (s : St) :
    (confirmDeploymentM s).2 = emit Event.promptConfirmEv s := by
  simp only [confirmDeploymentM]
  split <;> rfl

theorem appendsOnly_confirm {P : Event → Bool}
    (h : P Event.promptConfirmEv = true) : AppendsOnly P confirmDeploymentM := by
  intro s
  rw [confirmDeploymentM_state]
  exact ⟨rfl, rfl, [Event.promptConfirmEv], rfl, by simp [h]⟩

theorem appendsOnly_simulate {P : Event → Bool}
    (h : (simSteps.map Event.simulate).all P = true) :
    AppendsOnly P simulateDeployment := by
  intro s
  exact ⟨rfl, rfl, simSteps.map Event.simulate, rfl, h⟩

/-- A profile-lookup event. -/
def isLoadCfgEv : Event → Bool
  | Event.loadCfg _ => true
  | _ => false

/-- Witness for C1: a full default run (connect succeeds, every operation
succeeds) releases the session exactly once. -/
theorem c1_session_released_once_witness :
    ∃ b : Bool,
      (executeDeployment { deployPath := "/srv/app", backupPath := "/srv/bak" }
          { w := {} }).2.trace.countP isConnOk
          = ({ w := {} } : St).trace.countP isConnOk + b.toNat ∧
      (executeDeployment { deployPath := "/srv/app", backupPath := "/srv/bak" }
          { w := {} }).2.trace.countP isDispose
          = ({ w := {} } : St).trace.countP isDispose + b.toNat ∧
      (b = true →
        (executeDeployment { deployPath := "/srv/app", backupPath := "/srv/bak" }
            { w := {} }).2.trace.countP isDiscCall
            = ({ w := {} } : St).trace.countP isDiscCall + 1) :=
  c1_session_released_once { deployPath := "/srv/app", backupPath := "/srv/bak" }
    { w := {} } rfl

/-- C2.  With `dryRun = true` the pipeline records no remote-session
operation whatsoever — no session is constructed or connected, no remote
command run, no file transferred — and `simulateDeployment` itself always
returns success after walking exactly the seven named stages. -/
theorem c2_dry_run_is_remote_free :
    (∀ (opts : Options) (s : St), opts.dryRun = true →
      ∃ l, (deployProject opts s).2.trace = s.trace ++ l ∧
        l.all (fun e => !isRemoteEv e) = true) ∧
    (∀ s : St, simulateDeployment s
        = (Except.ok (), { s with trace := s.trace ++ simSteps.map Event.simulate })) := by
  constructor
  · intro opts s hdry
    have hAll : AppendsOnly (fun e => !isRemoteEv e) (deployProject opts) := by
      unfold deployProject
      apply appendsOnly_bind (appendsOnly_validate _ rfl)
      intro _
      apply appendsOnly_bind (appendsOnly_loadCfg _ rfl)
      intro cfg
      apply appendsOnly_bind (appendsOnly_checkGitStatus _ _ rfl rfl rfl)
      intro _
      apply appendsOnly_bind
      · by_cases hf : (!opts.force && !opts.dryRun) = true
        · rw [if_pos hf]
          exact appendsOnly_confirm rfl
        · rw [if_neg hf]
          exact appendsOnly_okStep
      · intro _
        rw [if_pos hdry]
        exact appendsOnly_simulate (by decide)
    obtain ⟨_, _, l, ht, ha⟩ := hAll s
    exact ⟨l, ht, ha⟩
  · intro s
    rfl

/-- Witness for C2: a concrete dry run of the staging environment. -/
theorem c2_dry_run_is_remote_free_witness :
    ∃ l, (deployProject { env := "staging", dryRun := true }
        { w := {} }).2.trace = ({ w := {} } : St).trace ++ l ∧
      l.all (fun e => !isRemoteEv e) = true :=
  c2_dry_run_is_remote_free.1 { env := "staging", dryRun := true } { w := {} } rfl

/-- C9.  For any environment name outside `{development, staging,
production}`, `deployProject` fails with the validation error and the trace
grows by the validation event alone — in particular no profile lookup
(`loadConfig`) is ever attempted. -/
theorem c9_invalid_env_no_profile_lookup (opts : Options) (s : St)
    (h : validEnvs.contains opts.env = false) :
    (deployProject opts s).1 = Except.error (DeployErr.invalidEnv opts.env) ∧
    (deployProject opts s).2.trace = s.trace ++ [Event.validateEnv opts.env] ∧
    (deployProject opts s).2.trace.countP isLoadCfgEv
        = s.trace.countP isLoadCfgEv := by
  have heq : deployProject opts s
      = (Except.error (DeployErr.invalidEnv opts.env),
         emit (Event.validateEnv opts.env) s) := by
    unfold deployProject
    exact bindStep_err (validateEnvironmentM_invalid opts.env s h)
  rw [heq]
  refine ⟨rfl, rfl, ?_⟩
  simp [emit, List.countP_append, List.countP_cons, List.countP_nil, isLoadCfgEv]

/-- Witness for C9: the environment name `"prod"` of the spec's own test
scenario. -/
theorem c9_invalid_env_no_profile_lookup_witness :
    (deployProject { env := "prod" } { w := {} }).1
        = Except.error (DeployErr.invalidEnv "prod") ∧
    (deployProject { env := "prod" } { w := {} }).2.trace
        = ({ w := {} } : St).trace ++ [Event.validateEnv "prod"] ∧
    (deployProject { env := "prod" } { w := {} }).2.trace.countP isLoadCfgEv
        = ({ w := {} } : St).trace.countP isLoadCfgEv :=
  c9_invalid_env_no_profile_lookup { env := "prod" } { w := {} } (by decide)

/-! ### Decomposition facts for the execute phase -/

theorem sshDisconnect_countUpload (s : St) :
    countUpload (sshDisconnect s).trace = countUpload s.trace := by
  by_cases hc : s.connected = true
  · rw [sshDisconnect_conn s hc]
    simp [countUpload, List.countP_append, List.countP_cons, List.countP_nil, isUploadOp]
  · rw [sshDisconnect_notconn s (by simpa using hc)]
    simp [countUpload, List.countP_append, List.countP_cons, List.countP_nil, isUploadOp]

theorem sshConnect_ok_inv {s1 s2 : St} (h : sshConnect s1 = (Except.ok (), s2)) :
    s2 = { s1 with
      idx := s1.idx + 1,
      trace := s1.trace ++ [Event.connectAttempt true],
      connected := true } := by
  by_cases ho : s1.w.oracle s1.idx = true
  · have h2 := sshConnect_ok s1 ho
    rw [h] at h2
    simpa using h2
  · have h2 := sshConnect_fail s1 (by simpa using ho)
    rw [h] at h2
    simp at h2

/-- C3.  Backup gates upload: (i) whenever a run of `executeDeployment` adds
any upload operation to the trace, the local build and the connect both
succeeded and the backup sub-stage succeeded first; (ii) if either remote
command of the backup stage fails, the run fails with that error and no
upload operation is ever invoked. -/
theorem c3_backup_gates_upload (cfg : Config) (s : St) :
    (countUpload (executeDeployment cfg s).2.trace ≠ countUpload s.trace →
      ∃ s1 s2, buildProject cfg s = (Except.ok (), s1) ∧
        sshConnect s1 = (Except.ok (), s2) ∧
        (backupCurrentVersion cfg s2).1 = Except.ok ()) ∧
    (∀ (s1 s2 : St) (e : DeployErr),
      buildProject cfg s = (Except.ok (), s1) →
      sshConnect s1 = (Except.ok (), s2) →
      (backupCurrentVersion cfg s2).1 = Except.error e →
      (executeDeployment cfg s).1 = Except.error e ∧
        countUpload (executeDeployment cfg s).2.trace = countUpload s.trace) := by
  obtain ⟨hcB, hwB, l0, htB, haB⟩ := appendsOnly_buildProject cfg s
  have hl0 : l0.countP isUploadOp = 0 := countP_eq_zero_of_all haB localEv_not_upload
  constructor
  · intro hup
    rcases hB : buildProject cfg s with ⟨rb, s1⟩
    rw [hB] at htB
    have ht0' : s1.trace = s.trace ++ l0 := htB
    cases rb with
    | error e =>
      rw [executeDeployment_build_err cfg s hB] at hup
      exact absurd (by simp [countUpload, ht0', List.countP_append, hl0]) hup
    | ok a =>
      rw [executeDeployment_build_ok cfg s hB] at hup
      by_cases ho : s1.w.oracle s1.idx = true
      · rw [seqStep_conn_ok _ s1 ho] at hup
        obtain ⟨hcK, hwK, lK, htK, haK⟩ := appendsOnly_backup cfg
          { s1 with
            idx := s1.idx + 1,
            trace := s1.trace ++ [Event.connectAttempt true],
            connected := true }
        have hlK : lK.countP isUploadOp = 0 := countP_eq_zero_of_all haK execEv_not_upload
        rcases hK : backupCurrentVersion cfg
            { s1 with
              idx := s1.idx + 1,
              trace := s1.trace ++ [Event.connectAttempt true],
              connected := true } with ⟨rk, s3⟩
        rw [hK] at htK
        have htK' : s3.trace = (s1.trace ++ [Event.connectAttempt true]) ++ lK := htK
        cases rk with
        | error e =>
          rw [show deployStages cfg { s1 with
              idx := s1.idx + 1,
              trace := s1.trace ++ [Event.connectAttempt true],
              connected := true } = (Except.error e, s3) from by
            unfold deployStages seqStep
            exact bindStep_err hK] at hup
          rw [sshDisconnect_countUpload] at hup
          exact absurd (by
            simp [countUpload, htK', ht0', List.countP_append, List.countP_cons,
              List.countP_nil, hl0, hlK, isUploadOp]) hup
        | ok a2 =>
          cases a2
          cases a
          refine ⟨s1, _, rfl, sshConnect_ok s1 ho, ?_⟩
          rw [hK]
      · rw [seqStep_conn_fail _ s1 (by simpa using ho)] at hup
        rw [sshDisconnect_countUpload] at hup
        exact absurd (by
          simp [countUpload, ht0', List.countP_append, List.countP_cons,
            List.countP_nil, hl0, isUploadOp]) hup
  · intro s1 s2 e hB hC hK
    rw [hB] at htB
    have ht0' : s1.trace = s.trace ++ l0 := htB
    have hs2 := sshConnect_ok_inv hC
    obtain ⟨hcK, hwK, lK, htK, haK⟩ := appendsOnly_backup cfg s2
    have hlK : lK.countP isUploadOp = 0 := countP_eq_zero_of_all haK execEv_not_upload
    have hKfull : backupCurrentVersion cfg s2
        = (Except.error e, (backupCurrentVersion cfg s2).2) := by
      rw [← hK]
    have hD : deployStages cfg s2 = (Except.error e, (backupCurrentVersion cfg s2).2) := by
      unfold deployStages seqStep
      exact bindStep_err hKfull
    have hEx : executeDeployment cfg s
        = (Except.error e, sshDisconnect (backupCurrentVersion cfg s2).2) := by
      rw [executeDeployment_build_ok cfg s hB]
      rw [show seqStep sshConnect (deployStages cfg) s1
          = (Except.error e, (backupCurrentVersion cfg s2).2) from by
        unfold seqStep
        rw [bindStep_ok hC]
        exact hD]
    rw [hEx]
    refine ⟨rfl, ?_⟩
    rw [sshDisconnect_countUpload]
    rw [countUpload, htK]
    rw [show s2.trace = s1.trace ++ [Event.connectAttempt true] from by rw [hs2]]
    simp [countUpload, ht0', List.countP_append, List.countP_cons,
      List.countP_nil, hl0, hlK, isUploadOp]

theorem seqStep_ok {a b : Step} {s s' : St} (h : a s = (Except.ok (), s')) :
    seqStep a b s = b s' := by
  unfold seqStep
  rw [bindStep_ok h]

theorem seqStep_err {a b : Step} {s s' : St} {e : DeployErr}
    (h : a s = (Except.error e, s')) : seqStep a b s = (Except.error e, s') := by
  unfold seqStep
  rw [bindStep_err h]

/-- A world whose only succeeding operation is the first (the SSH connect):
the backup `mkdir` is forced to fail. -/
def backupFailWorld : World := { oracle := fun n => decide (n = 0) }

/-- Run state for the forced-backup-failure scenario. -/
def backupFailSt : St := { w := backupFailWorld }

/-- Profile for the gating scenarios: no local build command, file-list
upload mode. -/
def gateCfg : Config := { deployPath := "/app", backupPath := "/bak" }

/-- Witness for C3: with the backup `mkdir -p` forced to fail, the run fails
with that error and no upload operation is recorded. -/
theorem c3_backup_gates_upload_witness :
    (executeDeployment gateCfg backupFailSt).1
        = Except.error (DeployErr.execFailed "mkdir -p /bak") ∧
      countUpload (executeDeployment gateCfg backupFailSt).2.trace
        = countUpload backupFailSt.trace :=
  (c3_backup_gates_upload gateCfg backupFailSt).2 backupFailSt
    ((sshConnect backupFailSt).2) (DeployErr.execFailed "mkdir -p /bak")
    rfl rfl rfl

/-- C4.  The verify sub-stage can never fail the run: `verifyDeployment`
returns success in every state (its `catch` downgrades any error to a
warning), so a run whose earlier sub-stages all succeeded resolves
successfully whatever the verify command does.  By contrast, a failure
inside `installAndBuild` propagates: when build, connect, backup and upload
succeeded and `installAndBuild` throws `e`, `executeDeployment` rejects
with that same `e`. -/
theorem c4_verify_warn_install_fatal :
    (∀ (cfg : Config) (s : St), (verifyDeployment cfg s).1 = Except.ok ()) ∧
    (∀ (cfg : Config) (s s1 s2 s3 s4 : St) (e : DeployErr),
      buildProject cfg s = (Except.ok (), s1) →
      sshConnect s1 = (Except.ok (), s2) →
      backupCurrentVersion cfg s2 = (Except.ok (), s3) →
      uploadStage cfg s3 = (Except.ok (), s4) →
      (installAndBuild cfg s4).1 = Except.error e →
      (executeDeployment cfg s).1 = Except.error e) ∧
    (∀ (cfg : Config) (s s1 s2 s3 s4 s5 s6 : St),
      buildProject cfg s = (Except.ok (), s1) →
      sshConnect s1 = (Except.ok (), s2) →
      backupCurrentVersion cfg s2 = (Except.ok (), s3) →
      uploadStage cfg s3 = (Except.ok (), s4) →
      installAndBuild cfg s4 = (Except.ok (), s5) →
      restartService cfg s5 = (Except.ok (), s6) →
      (executeDeployment cfg s).1 = Except.ok ()) := by
  have hver : ∀ (cfg : Config) (s : St), (verifyDeployment cfg s).1 = Except.ok () := by
    intro cfg s
    by_cases hv : cfg.verifyCommand.isEmpty = true
    · simp [verifyDeployment, hv]
    · simp only [verifyDeployment, hv, Bool.false_eq_true, if_false]
      rcases hE : sshExecOut cfg.verifyCommand s with ⟨r, sx⟩
      cases r <;> rfl
  refine ⟨hver, ?_, ?_⟩
  · intro cfg s s1 s2 s3 s4 e hB hC hK hU hI
    have hIfull : installAndBuild cfg s4
        = (Except.error e, (installAndBuild cfg s4).2) := by
      rw [← hI]
    have hD : deployStages cfg s2 = (Except.error e, (installAndBuild cfg s4).2) := by
      unfold deployStages
      rw [seqStep_ok hK, seqStep_ok hU, seqStep_err hIfull]
    rw [executeDeployment_build_ok cfg s hB, seqStep_ok hC, hD]
  · intro cfg s s1 s2 s3 s4 s5 s6 hB hC hK hU hI hR
    have hD : deployStages cfg s2 = verifyDeployment cfg s6 := by
      unfold deployStages
      rw [seqStep_ok hK, seqStep_ok hU, seqStep_ok hI, seqStep_ok hR]
    rw [executeDeployment_build_ok cfg s hB, seqStep_ok hC, hD]
    exact hver cfg s6

/-- World for the install-failure scenario: connect, backup, upload and the
`cd` all succeed; the remote install command (oracle index 6) fails. -/
def installFailWorld : World := { oracle := fun n => decide (n < 6) }

/-- Run state for the install-failure scenario. -/
def installFailSt : St := { w := installFailWorld }

/-- Profile for the install-failure scenario: tree upload, non-empty remote
install command. -/
def installCfg : Config :=
  { deployPath := "/app", backupPath := "/bak", installCommand := "npm install",
    uploadType := "rsync", localPath := "dist" }

/-- World for the verify-failure scenario: connect, backup, upload and the
`cd` (oracle indices 0–5) succeed; the verify exec (index 6) fails. -/
def verifyFailWorld : World := { oracle := fun n => decide (n < 6) }

/-- Run state for the verify-failure scenario. -/
def verifyFailSt : St := { w := verifyFailWorld }

/-- Profile for the verify-failure scenario: only the verify command is
non-empty. -/
def verifyCfg : Config :=
  { deployPath := "/srv/app", backupPath := "/srv/bak",
    verifyCommand := "curl -f localhost" }

/-- Witness for C4: a run whose remote install fails rejects with the
install error, while a run whose only failure is the verify command still
resolves successfully. -/
theorem c4_verify_warn_install_fatal_witness :
    (executeDeployment installCfg installFailSt).1
        = Except.error (DeployErr.execFailed "cd /app && npm install") ∧
    (executeDeployment verifyCfg verifyFailSt).1 = Except.ok () :=
  ⟨c4_verify_warn_install_fatal.2.1 installCfg installFailSt installFailSt
    ((sshConnect installFailSt).2)
    ((backupCurrentVersion installCfg (sshConnect installFailSt).2).2)
    ((uploadStage installCfg
        (backupCurrentVersion installCfg (sshConnect installFailSt).2).2).2)
    (DeployErr.execFailed "cd /app && npm install")
    rfl rfl rfl rfl rfl,
   c4_verify_warn_install_fatal.2.2 verifyCfg verifyFailSt verifyFailSt
    ((sshConnect verifyFailSt).2)
    ((backupCurrentVersion verifyCfg (sshConnect verifyFailSt).2).2)
    ((uploadStage verifyCfg
        (backupCurrentVersion verifyCfg (sshConnect verifyFailSt).2).2).2)
    ((installAndBuild verifyCfg
        (uploadStage verifyCfg
          (backupCurrentVersion verifyCfg (sshConnect verifyFailSt).2).2).2).2)
    ((restartService verifyCfg
        (installAndBuild verifyCfg
          (uploadStage verifyCfg
            (backupCurrentVersion verifyCfg (sshConnect verifyFailSt).2).2).2).2).2)
    rfl rfl rfl rfl rfl rfl⟩

/-! ### Empty-command stages (C5) and the disconnected-session guard (C10) -/

/-- A profile with every per-stage command string empty. -/
def plainCfg : Config := { deployPath := "/app", backupPath := "/bak" }

/-- A connected session in a world where every remote operation fails. -/
def emptyCmdSt : St := { w := { oracle := fun _ => false }, connected := true }

/-- Counterexample to C5 as stated: with `installCommand` and
`buildCommandRemote` both empty, `installAndBuild` still executes a remote
command — the unconditional `cd <deployPath>` — and that command can fail,
so the stage is neither remote-command-free nor unconditionally
successful. -/
theorem c5_counterexample_install_cd :
    (installAndBuild plainCfg emptyCmdSt).2.trace = [Event.remoteExec "cd /app"] ∧
    (installAndBuild plainCfg emptyCmdSt).1
        = Except.error (DeployErr.execFailed "cd /app") := by
  constructor <;> rfl

theorem seqStep_okStep_okStep (a : Step) (s : St) :
    seqStep a (seqStep okStep okStep) s = a s := by
  rcases hX : a s with ⟨r, s1⟩
  cases r with
  | ok u =>
    cases u
    rw [seqStep_ok hX]
    rfl
  | error e =>
    rw [seqStep_err hX]

/-- C5 (amended).  BuildLocal, RestartService and Verify really are skipped
outright when their command string is empty — no command is executed and
the stage succeeds without touching the state.  InstallAndBuildRemote,
however, always first executes `cd <deployPath>` as a remote command, so
with both of its command strings empty the stage behaves exactly like that
single remote exec (and fails when it fails) instead of being a no-op. -/
theorem c5_empty_commands_skip (cfg : Config) (s : St) :
    (cfg.buildCommand.isEmpty = true → buildProject cfg s = (Except.ok (), s)) ∧
    (cfg.restartCommand.isEmpty = true → restartService cfg s = (Except.ok (), s)) ∧
    (cfg.verifyCommand.isEmpty = true → verifyDeployment cfg s = (Except.ok (), s)) ∧
    (cfg.installCommand.isEmpty = true → cfg.buildCommandRemote.isEmpty = true →
      installAndBuild cfg s = sshExecU ("cd " ++ cfg.deployPath) s) := by
  refine ⟨?_, ?_, ?_, ?_⟩
  · intro h
    simp [buildProject, h]
  · intro h
    simp [restartService, h]
  · intro h
    simp [verifyDeployment, h]
  · intro hi hb
    unfold installAndBuild
    rw [if_pos hi, if_pos hb]
    exact seqStep_okStep_okStep _ s

/-- Witness for the amended C5 on a profile whose command strings are all
empty. -/
theorem c5_empty_commands_skip_witness :
    buildProject plainCfg emptyCmdSt = (Except.ok (), emptyCmdSt) ∧
    restartService plainCfg emptyCmdSt = (Except.ok (), emptyCmdSt) ∧
    verifyDeployment plainCfg emptyCmdSt = (Except.ok (), emptyCmdSt) ∧
    installAndBuild plainCfg emptyCmdSt
        = sshExecU ("cd " ++ plainCfg.deployPath) emptyCmdSt :=
  ⟨(c5_empty_commands_skip plainCfg emptyCmdSt).1 rfl,
   (c5_empty_commands_skip plainCfg emptyCmdSt).2.1 rfl,
   (c5_empty_commands_skip plainCfg emptyCmdSt).2.2.1 rfl,
   (c5_empty_commands_skip plainCfg emptyCmdSt).2.2.2 rfl rfl⟩

/-- C10.  On a session whose `connected` flag is down, `exec`, `uploadFile`,
`uploadFiles` and `uploadDirectory` all throw `SSH未连接` immediately and
return the state untouched — no trace event, no oracle index consumed, no
flag change. -/
theorem c10_not_connected_guard (s : St)
    (cmd localPath remotePath remoteDir localDir : String)
    (h : s.connected = false) :
    sshExecOut cmd s = (Except.error DeployErr.notConnected, s) ∧
    uploadFileM localPath remotePath s = (Except.error DeployErr.notConnected, s) ∧
    uploadFilesM remoteDir s = (Except.error DeployErr.notConnected, s) ∧
    uploadDirectoryM localDir remoteDir s = (Except.error DeployErr.notConnected, s) := by
  refine ⟨sshExecOut_state_notconn cmd s h, ?_, ?_, ?_⟩ <;>
    simp [uploadFileM, uploadFilesM, uploadDirectoryM, h]

/-- Witness for C10: a fresh, never-connected session. -/
theorem c10_not_connected_guard_witness :
    sshExecOut "ls" { w := {} } = (Except.error DeployErr.notConnected, { w := {} }) ∧
    uploadFileM "dist/a.js" "/app/a.js" { w := {} }
        = (Except.error DeployErr.notConnected, { w := {} }) ∧
    uploadFilesM "/app" { w := {} } = (Except.error DeployErr.notConnected, { w := {} }) ∧
    uploadDirectoryM "dist" "/app" { w := {} }
        = (Except.error DeployErr.notConnected, { w := {} }) :=
  c10_not_connected_guard { w := {} } "ls" "dist/a.js" "/app/a.js" "/app" "dist" rfl

/-! ### Profile resolution (C7) -/

theorem find?_congr_on {α : Type} (l : List α) (p q : α → Bool)
    (h : ∀ x ∈ l, p x = q x) : l.find? p = l.find? q := by
  induction l with
  | nil => rfl
  | cons a t ih =>
    have ha := h a (List.mem_cons_self a t)
    by_cases hp : p a = true
    · rw [List.find?_cons_of_pos _ hp, List.find?_cons_of_pos _ (by rw [← ha]; exact hp)]
    · have hp' : p a = false := by simpa using hp
      rw [List.find?_cons_of_neg _ (by simp [hp']),
        List.find?_cons_of_neg _ (by simp [← ha, hp'])]
      exact ih (fun x hx => h x (List.mem_cons_of_mem a hx))

theorem find?_append_none {α : Type} {l1 l2 : List α} {p : α → Bool}
    (h : ∀ x ∈ l1, p x = false) : (l1 ++ l2).find? p = l2.find? p := by
  induction l1 with
  | nil => rfl
  | cons a t ih =>
    rw [List.cons_append,
      List.find?_cons_of_neg _ (by simp [h a (List.mem_cons_self a t)])]
    exact ih (fun x hx => h x (List.mem_cons_of_mem a hx))

/-- With distinct keys (a JS object guarantees them), the key-list scan of
`ConfigManager.loadConfig` — find a matching *name*, then index the map —
coincides with a direct first-match scan of the entries. -/
theorem resolveServer_eq_find (env : String) :
    ∀ servers : List (String × Config), (servers.map Prod.fst).Nodup →
      resolveServer servers env = (servers.find? (serverMatches env)).map Prod.snd := by
  intro servers
  induction servers with
  | nil => intro _; rfl
  | cons hd tl ih =>
    intro hnd
    obtain ⟨n, c⟩ := hd
    rw [List.map_cons, List.nodup_cons] at hnd
    obtain ⟨hn, hnd'⟩ := hnd
    have hlook : List.lookup n ((n, c) :: tl) = some c := by simp [List.lookup]
    have hhead : nameMatches ((n, c) :: tl) env n = serverMatches env (n, c) := by
      simp [nameMatches, serverMatches, hlook]
    have hcongr : ∀ name ∈ tl.map Prod.fst,
        nameMatches ((n, c) :: tl) env name = nameMatches tl env name := by
      intro name hmem
      have hne : (name == n) = false := by
        have hne' : name ≠ n := fun hEq => hn (hEq ▸ hmem)
        simp [hne']
      simp [nameMatches, List.lookup, hne]
    by_cases hm : serverMatches env (n, c) = true
    · unfold resolveServer
      rw [List.map_cons, List.find?_cons_of_pos _ (by rw [hhead]; exact hm),
        List.find?_cons_of_pos _ hm]
      exact hlook
    · have hm' : serverMatches env (n, c) = false := by simpa using hm
      unfold resolveServer
      rw [List.map_cons, List.find?_cons_of_neg _ (by simp [hhead, hm']),
        List.find?_cons_of_neg _ (by simp [hm']),
        find?_congr_on _ _ (fun name => nameMatches tl env name) hcongr]
      have h2 := ih hnd'
      unfold resolveServer at h2
      rcases hf : (tl.map Prod.fst).find? (fun name => nameMatches tl env name)
        with _ | name
      · rw [hf] at h2
        show (none : Option Config) = (tl.find? (serverMatches env)).map Prod.snd
        exact h2
      · rw [hf] at h2
        have hmem : name ∈ tl.map Prod.fst := List.mem_of_find?_eq_some hf
        have hne : (name == n) = false := by
          have hne' : name ≠ n := fun hEq => hn (hEq ▸ hmem)
          simp [hne']
        show List.lookup name ((n, c) :: tl) = (tl.find? (serverMatches env)).map Prod.snd
        rw [show List.lookup name ((n, c) :: tl) = List.lookup name tl from by
          simp [List.lookup, hne]]
        exact h2

/-- C7.  Profile resolution is a first-match scan of the stored entries:
(i) the first entry (in stored order) whose name contains `env` or whose
`environment` field equals `env` is the resolved profile; (ii) with no
matching entry, resolution yields nothing; and (iii) a resolution miss
makes `loadConfig` fail with the configuration-not-found error, returning
no profile. -/
theorem c7_first_match_resolution (servers : List (String × Config)) (env : String)
    (hnd : (servers.map Prod.fst).Nodup) :
    (∀ pre entry post, servers = pre ++ entry :: post →
        serverMatches env entry = true →
        (∀ x ∈ pre, serverMatches env x = false) →
        resolveServer servers env = some entry.2) ∧
    ((∀ x ∈ servers, serverMatches env x = false) →
        resolveServer servers env = none) ∧
    (∀ s : St, s.w.storeExists = true → s.w.servers = servers →
        resolveServer servers env = none →
        loadConfigM env s
          = (Except.error (DeployErr.configNotFound env), emit (Event.loadCfg env) s)) := by
  refine ⟨?_, ?_, ?_⟩
  · intro pre entry post hsplit hm hpre
    rw [resolveServer_eq_find env servers hnd, hsplit, find?_append_none hpre,
      List.find?_cons_of_pos _ hm]
    rfl
  · intro hall
    rw [resolveServer_eq_find env servers hnd,
      List.find?_eq_none.mpr (fun x hx => by simp [hall x hx])]
    rfl
  · intro s h1 h2 h3
    simp only [loadConfigM]
    rw [if_pos h1, h2, h3]

/-- The store of the C7 scenario: a production entry first, then a staging
entry matched by name. -/
def demoServers : List (String × Config) :=
  [("alpha", { environment := some "production" }), ("staging-server", {})]

/-- Witness for C7: `"staging"` skips the non-matching first entry and
resolves to the second by substring match on its name. -/
theorem c7_first_match_resolution_witness :
    resolveServer demoServers "staging" = some ({} : Config) :=
  (c7_first_match_resolution demoServers "staging" (by decide)).1
    [("alpha", { environment := some "production" })] ("staging-server", {}) []
    rfl (by decide) (by decide)

/-! ### The `.deploy-info` marker (C6) and CLI exit codes (C8) -/

/-- Profile of the status scenario. -/
def markerCfg : Config := { deployPath := "/srv/app" }

/-- `JSON.parse` as observed in the status scenario: the marker document
parses to an object carrying `lastDeploy` and `version`; any other string
fails to parse. -/
def markerParse : String → Option JsObj := fun content =>
  if content == "\x7b\"lastDeploy\":\"2024-01-01\",\"version\":\"2.0.0\"\x7d"
  then some [("lastDeploy", some "2024-01-01"), ("version", some "2.0.0")]
  else none

/-- World of the status scenario: the marker file exists with valid JSON
content, the `stat` probe fails, there is no remote `package.json`. -/
def markerWorld : World :=
  { remoteFiles := ["/srv/app/.deploy-info"],
    execOut := fun cmd =>
      if cmd == "cat /srv/app/.deploy-info"
      then "\x7b\"lastDeploy\":\"2024-01-01\",\"version\":\"2.0.0\"\x7d" else "",
    oracle := fun n => decide (n < 2) }

/-- Connected session for the status scenario. -/
def markerSt : St := { w := markerWorld, connected := true }

/-- C6 at the failing input: the marker file exists and holds valid JSON,
yet `getDeployInfo` returns an object carrying no field of it — the parse
result is assigned to the `const deployInfo` binding, a TypeError that the
empty `catch` swallows — while the stage only ever issues read commands
(`test -f`, `cat`, `stat`), never a write to the marker. -/
theorem c6_marker_fields_dropped :
    (getDeployInfo markerCfg markerParse markerSt).1 = [] ∧
    (getDeployInfo markerCfg markerParse markerSt).2.trace
      = [Event.remoteExec "test -f /srv/app/.deploy-info",
         Event.remoteExec "cat /srv/app/.deploy-info",
         Event.remoteExec "stat -c %y /srv/app",
         Event.remoteExec "test -f /srv/app/package.json"] := by
  constructor <;> rfl

/-- World of the failing-logs scenario: a resolvable staging profile but a
remote host that refuses every operation, so the `logs` connect throws. -/
def logsFailWorld : World :=
  { servers := [("staging-server", { deployPath := "/srv/app" })],
    oracle := fun _ => false }

/-- Run state of the failing-logs scenario. -/
def logsFailSt : St := { w := logsFailWorld }

/-- Counterexample to C8 as stated: the `logs` flow hits a fatal error (the
SSH connect fails), yet the CLI exit code is `0` — the `logs` action's
`catch` only prints, it never calls `process.exit(1)`. -/
theorem c8_counterexample_logs_exit_zero :
    (showLogsCore "staging" 50 logsFailSt).1 = Except.error DeployErr.connectFailed ∧
    logsAction "staging" 50 logsFailSt = 0 := by
  constructor <;> rfl

/-- C8 (amended).  A fatal deployment or configuration error surfacing from
`deployProject` makes the `deploy` action exit `1`, and a run that resolves
successfully — including one whose only failure is the downgraded verify
warning — exits `0`; an error inside the `logs` flow, however, never
changes the exit code: the process still ends with `0`. -/
theorem c8_exit_codes (opts : Options) (env : String) (lines : Nat) (s t : St) :
    (∀ e : DeployErr, (deployProject opts s).1 = Except.error e →
        deployAction opts s = 1) ∧
    ((deployProject opts s).1 = Except.ok () → deployAction opts s = 0) ∧
    logsAction env lines t = 0 := by
  refine ⟨?_, ?_, ?_⟩
  · intro e he
    simp [deployAction, he]
  · intro h
    simp [deployAction, h]
  · rcases hE : showLogsCore env lines t with ⟨r, t1⟩
    simp only [logsAction, showLogsRun, hE]
    cases r <;> rfl

/-- World of the verify-warn scenario: everything up to the verify command
succeeds (oracle indices 0–8) and the verify exec (index 9) fails. -/
def warnWorld : World :=
  { servers := [("staging-server",
      { deployPath := "/srv/app", backupPath := "/srv/bak",
        verifyCommand := "curl -f localhost" })],
    oracle := fun n => decide (n < 9) }

/-- Run state of the verify-warn scenario. -/
def warnSt : St := { w := warnWorld }

/-- A forced staging deploy request. -/
def warnOpts : Options := { env := "staging", force := true }

/-- Witness for the amended C8: the verify-warn run exits `0` (and did in
fact record a verify warning), and a failing logs invocation also exits
`0`. -/
theorem c8_exit_codes_witness :
    deployAction warnOpts warnSt = 0 ∧
    logsAction "staging" 50 logsFailSt = 0 ∧
    (deployProject warnOpts warnSt).2.trace.countP
        (fun e => e == Event.verifyWarn) = 1 :=
  ⟨(c8_exit_codes warnOpts "staging" 50 warnSt logsFailSt).2.1 rfl,
   (c8_exit_codes warnOpts "staging" 50 warnSt logsFailSt).2.2,
   by rfl⟩
